import Mathlib

/-!
Shallow embedding of the DSP node core (`src/lib.rs`, `src/signals.rs`).

Buffers (`RealBuffer = Vec<f32>`, `ComplexBuffer = Vec<Complex32>`) are
embedded as Lean lists over an abstract scalar type `α` standing for the
32-bit float `f32`; the claims under verification are structural identities
about which buffer positions receive which combinations of `*`, `+`, `0`,
real part and imaginary part, so they are stated for every interpretation
of those operations, which includes IEEE-754 `f32`.

Panics of the Rust indexing operators are modelled by `Option`: every
read `input[i]` and every write `self.output[i] = v` is bounds-checked,
and a failed check makes the whole `process` call return `none`.
-/

/-- `num_complex::Complex32`: a complex number with real and imaginary
components, over the abstract scalar type `α`. -/
structure Complex32 (α : Type) where
  re : α
  im : α
deriving DecidableEq

namespace Complex32

/-- `Complex32::new(re, im)`. -/
def new (re im : α) : Complex32 α := ⟨re, im⟩

@[simp] theorem re_new (x y : α) : (Complex32.new x y).re = x := rfl

@[simp] theorem im_new (x y : α) : (Complex32.new x y).im = y := rfl

end Complex32

/-- The in-place update loop `for i in 0..n { output[i] = vᵢ }` shared by
every `process` implementation.  `val i` computes the value written at
index `i` (`none` models a panicking out-of-bounds read of an input
buffer), and a write outside the output buffer is a panic as well, so the
loop returns `none` exactly when some buffer access would panic. -/
def writeLoop (val : Nat → Option γ) : Nat → List γ → Option (List γ)
  | 0, out => some out
  | n + 1, out =>
    match writeLoop val n out with
    | none => none
    | some r =>
      match val n with
      | none => none
      | some v => if n < r.length then some (r.set n v) else none

/-- `struct RealToComplexNode { output: ComplexBuffer }`. -/
structure RealToComplexNode (α : Type) where
  output : List (Complex32 α)

/-- `RealToComplexNode::new(size)`: owned buffer of `size` copies of
`Complex32::new(0.0, 0.0)`. -/
def RealToComplexNode.new (α : Type) [Zero α] (size : Nat) : RealToComplexNode α :=
  ⟨List.replicate size (Complex32.new 0 0)⟩

/-- `RealToComplexNode::process`: `n = min(input.len(), output.len())`,
then `output[i] = Complex32::new(input[i], 0.0)` for `i` in `0..n`.
Returns the updated node (whose `output` is the returned buffer). -/
def RealToComplexNode.process [Zero α] (node : RealToComplexNode α) (input : List α) :
    Option (RealToComplexNode α) :=
  (writeLoop (fun i => (input[i]?).map (fun x => Complex32.new x 0))
      (min input.length node.output.length) node.output).map RealToComplexNode.mk

/-- `struct ComplexToRealNode { output: RealBuffer }`. -/
structure ComplexToRealNode (α : Type) where
  output : List α

/-- `ComplexToRealNode::new(size)`: owned buffer of `size` copies of `0.0`. -/
def ComplexToRealNode.new (α : Type) [Zero α] (size : Nat) : ComplexToRealNode α :=
  ⟨List.replicate size 0⟩

/-- `ComplexToRealNode::process`: `n = min(input.len(), output.len())`,
then `output[i] = input[i].re` for `i` in `0..n`. -/
def ComplexToRealNode.process (node : ComplexToRealNode α) (input : List (Complex32 α)) :
    Option (ComplexToRealNode α) :=
  (writeLoop (fun i => (input[i]?).map Complex32.re)
      (min input.length node.output.length) node.output).map ComplexToRealNode.mk

/-- `struct GainNode { scale: f32, output: RealBuffer }`. -/
structure GainNode (α : Type) where
  scale : α
  output : List α

/-- `GainNode::new(scale, frame_size)`: owned buffer of `frame_size`
copies of `0.0`. -/
def GainNode.new [Zero α] (scale : α) (frame_size : Nat) : GainNode α :=
  ⟨scale, List.replicate frame_size 0⟩

/-- `GainNode::process`: `n = min(input.len(), output.len())`, then
`output[i] = scale * input[i]` for `i` in `0..n`. -/
def GainNode.process [Mul α] (node : GainNode α) (input : List α) :
    Option (GainNode α) :=
  (writeLoop (fun i => (input[i]?).map (fun x => node.scale * x))
      (min input.length node.output.length) node.output).map (GainNode.mk node.scale)

/-- `struct SumNode { output: RealBuffer }`. -/
structure SumNode (α : Type) where
  output : List α

/-- `SumNode::new(frame_size)`: owned buffer of `frame_size` copies of `0.0`. -/
def SumNode.new (α : Type) [Zero α] (frame_size : Nat) : SumNode α :=
  ⟨List.replicate frame_size 0⟩

/-- `SumNode::process`: `n = min(min(input1.len(), input2.len()), output.len())`,
then `output[i] = input1[i] + input2[i]` for `i` in `0..n`. -/
def SumNode.process [Add α] (node : SumNode α) (input1 input2 : List α) :
    Option (SumNode α) :=
  (writeLoop
      (fun i =>
        match input1[i]?, input2[i]? with
        | some x, some y => some (x + y)
        | _, _ => none)
      (min (min input1.length input2.length) node.output.length) node.output).map SumNode.mk

/-- Characterisation of `writeLoop`: when the loop bound fits inside the
output buffer and every value computation succeeds, the loop succeeds,
keeps the buffer length, writes `val i` at every `i < n`, and leaves
every position `i ≥ n` untouched. -/
theorem writeLoop_spec (val : Nat → Option γ) :
    ∀ (n : Nat) (out : List γ), n ≤ out.length → (∀ i, i < n → (val i).isSome) →
    ∃ r, writeLoop val n out = some r ∧ r.length = out.length ∧
      (∀ i, i < n → r[i]? = val i) ∧ (∀ i, n ≤ i → r[i]? = out[i]?) := by
  intro n
  induction n with
  | zero =>
    intro out _ _
    exact ⟨out, rfl, rfl, fun i hi => absurd hi (Nat.not_lt_zero i), fun _ _ => rfl⟩
  | succ n ih =>
    intro out hn hv
    obtain ⟨r, hr, hlen, hlt, hge⟩ :=
      ih out (Nat.le_of_succ_le hn) (fun i hi => hv i (Nat.lt_succ_of_lt hi))
    obtain ⟨v, hval⟩ := Option.isSome_iff_exists.mp (hv n (Nat.lt_succ_self n))
    have hnr : n < r.length := hlen ▸ Nat.lt_of_succ_le hn
    refine ⟨r.set n v, ?_, ?_, ?_, ?_⟩
    · simp [writeLoop, hr, hval, hnr]
    · simp [hlen]
    · intro i hi
      rcases Nat.lt_succ_iff_lt_or_eq.mp hi with hi' | hi'
      · rw [List.getElem?_set_ne (Nat.ne_of_gt hi'), hlt i hi']
      · subst hi'
        rw [List.getElem?_set_self hnr, hval]
    · intro i hi
      rw [List.getElem?_set_ne (Nat.ne_of_lt (Nat.lt_of_succ_le hi)), hge i (Nat.le_of_succ_le hi)]

/-- `RealToComplexNode::process` always succeeds, keeps the buffer length,
writes `Complex32::new(input[i], 0.0)` at every `i < n` and leaves every
`i ≥ n` untouched, where `n = min(input.len(), output.len())`. -/
theorem RealToComplexNode.process_spec_r2c [Zero α] (node : RealToComplexNode α) (input : List α) :
    ∃ r, node.process input = some r ∧
      r.output.length = node.output.length ∧
      (∀ i, i < min input.length node.output.length →
        r.output[i]? = (input[i]?).map (fun x => Complex32.new x 0)) ∧
      (∀ i, min input.length node.output.length ≤ i → r.output[i]? = node.output[i]?) := by
  obtain ⟨r, hr, hlen, hlt, hge⟩ :=
    writeLoop_spec (fun i => (input[i]?).map (fun x => Complex32.new x 0))
      (min input.length node.output.length) node.output
      (Nat.min_le_right _ _)
      (fun i hi => by
        have hi' : i < input.length := Nat.lt_of_lt_of_le hi (Nat.min_le_left _ _)
        simp [List.getElem?_eq_getElem hi'])
  exact ⟨⟨r⟩, by simp [RealToComplexNode.process, hr], hlen, hlt, hge⟩

/-- `ComplexToRealNode::process` always succeeds, keeps the buffer length,
writes `input[i].re` at every `i < n` and leaves every `i ≥ n` untouched,
where `n = min(input.len(), output.len())`. -/
theorem ComplexToRealNode.process_spec_c2r (node : ComplexToRealNode α) (input : List (Complex32 α)) :
    ∃ r, node.process input = some r ∧
      r.output.length = node.output.length ∧
      (∀ i, i < min input.length node.output.length →
        r.output[i]? = (input[i]?).map Complex32.re) ∧
      (∀ i, min input.length node.output.length ≤ i → r.output[i]? = node.output[i]?) := by
  obtain ⟨r, hr, hlen, hlt, hge⟩ :=
    writeLoop_spec (fun i => (input[i]?).map Complex32.re)
      (min input.length node.output.length) node.output
      (Nat.min_le_right _ _)
      (fun i hi => by
        have hi' : i < input.length := Nat.lt_of_lt_of_le hi (Nat.min_le_left _ _)
        simp [List.getElem?_eq_getElem hi'])
  exact ⟨⟨r⟩, by simp [ComplexToRealNode.process, hr], hlen, hlt, hge⟩

/-- `GainNode::process` always succeeds, keeps the scale factor and the
buffer length, writes `scale * input[i]` at every `i < n` and leaves every
`i ≥ n` untouched, where `n = min(input.len(), output.len())`. -/
theorem GainNode.process_spec_gain [Mul α] (node : GainNode α) (input : List α) :
    ∃ r, node.process input = some r ∧ r.scale = node.scale ∧
      r.output.length = node.output.length ∧
      (∀ i, i < min input.length node.output.length →
        r.output[i]? = (input[i]?).map (fun x => node.scale * x)) ∧
      (∀ i, min input.length node.output.length ≤ i → r.output[i]? = node.output[i]?) := by
  obtain ⟨r, hr, hlen, hlt, hge⟩ :=
    writeLoop_spec (fun i => (input[i]?).map (fun x => node.scale * x))
      (min input.length node.output.length) node.output
      (Nat.min_le_right _ _)
      (fun i hi => by
        have hi' : i < input.length := Nat.lt_of_lt_of_le hi (Nat.min_le_left _ _)
        simp [List.getElem?_eq_getElem hi'])
  exact ⟨⟨node.scale, r⟩, by simp [GainNode.process, hr], rfl, hlen, hlt, hge⟩

/-- `SumNode::process` always succeeds, keeps the buffer length, writes
`input1[i] + input2[i]` at every `i < n` and leaves every `i ≥ n`
untouched, where `n = min(min(input1.len(), input2.len()), output.len())`. -/
theorem SumNode.process_spec_sum [Add α] (node : SumNode α) (input1 input2 : List α) :
    ∃ r, node.process input1 input2 = some r ∧
      r.output.length = node.output.length ∧
      (∀ i, ∀ h1 : i < input1.length, ∀ h2 : i < input2.length,
        i < min (min input1.length input2.length) node.output.length →
        r.output[i]? = some (input1.get ⟨i, h1⟩ + input2.get ⟨i, h2⟩)) ∧
      (∀ i, min (min input1.length input2.length) node.output.length ≤ i →
        r.output[i]? = node.output[i]?) := by
  obtain ⟨r, hr, hlen, hlt, hge⟩ :=
    writeLoop_spec
      (fun i =>
        match input1[i]?, input2[i]? with
        | some x, some y => some (x + y)
        | _, _ => none)
      (min (min input1.length input2.length) node.output.length) node.output
      (Nat.min_le_right _ _)
      (fun i hi => by
        have h1 : i < input1.length :=
          Nat.lt_of_lt_of_le hi (Nat.le_trans (Nat.min_le_left _ _) (Nat.min_le_left _ _))
        have h2 : i < input2.length :=
          Nat.lt_of_lt_of_le hi (Nat.le_trans (Nat.min_le_left _ _) (Nat.min_le_right _ _))
        simp [List.getElem?_eq_getElem h1, List.getElem?_eq_getElem h2])
  refine ⟨⟨r⟩, by simp only [SumNode.process, hr, Option.map_some'], hlen, ?_, hge⟩
  intro i h1 h2 hi
  rw [hlt i hi]
  simp [List.getElem?_eq_getElem h1, List.getElem?_eq_getElem h2, List.get_eq_getElem]

/-- Claim C1: for every node (RealToComplexNode, ComplexToRealNode,
GainNode, SumNode) whose configured capacity is `k` (the constructors
with argument `k` produce exactly such nodes), and for every input frame
of any length, `process` succeeds and the buffer it returns has length
exactly `k`: the owned output buffer is never resized. -/
theorem claim_C1 {α : Type} [Zero α] [Add α] [Mul α] (k : Nat)
    (r2c : RealToComplexNode α) (c2r : ComplexToRealNode α)
    (gn : GainNode α) (sn : SumNode α)
    (h1 : r2c.output.length = k) (h2 : c2r.output.length = k)
    (h3 : gn.output.length = k) (h4 : sn.output.length = k)
    (A : List α) (C : List (Complex32 α)) (B1 B2 : List α) :
    ((RealToComplexNode.new α k).output.length = k ∧
      (ComplexToRealNode.new α k).output.length = k ∧
      (∀ g : α, (GainNode.new g k).output.length = k) ∧
      (SumNode.new α k).output.length = k) ∧
    (∃ r, r2c.process A = some r ∧ r.output.length = k) ∧
    (∃ r, c2r.process C = some r ∧ r.output.length = k) ∧
    (∃ r, gn.process A = some r ∧ r.output.length = k) ∧
    (∃ r, sn.process B1 B2 = some r ∧ r.output.length = k) := by
  refine ⟨⟨by simp [RealToComplexNode.new], by simp [ComplexToRealNode.new],
    fun g => by simp [GainNode.new], by simp [SumNode.new]⟩, ?_, ?_, ?_, ?_⟩
  · obtain ⟨r, hr, hlen, -, -⟩ := r2c.process_spec_r2c A
    exact ⟨r, hr, hlen.trans h1⟩
  · obtain ⟨r, hr, hlen, -, -⟩ := c2r.process_spec_c2r C
    exact ⟨r, hr, hlen.trans h2⟩
  · obtain ⟨r, hr, -, hlen, -, -⟩ := gn.process_spec_gain A
    exact ⟨r, hr, hlen.trans h3⟩
  · obtain ⟨r, hr, hlen, -, -⟩ := sn.process_spec_sum B1 B2
    exact ⟨r, hr, hlen.trans h4⟩

/-- Claim C2: for a GainNode with scale factor `g` and frame capacity `k`
and every input frame `A` with length at least `k`, the frame returned by
`process` satisfies `process(A)[i] = g * A[i]` for every `i < k`. -/
theorem claim_C2 {α : Type} [Mul α] (gn : GainNode α) (k : Nat)
    (hk : gn.output.length = k) (A : List α) (hA : k ≤ A.length)
    (i : Nat) (hi : i < k) :
    ∃ r, gn.process A = some r ∧
      r.output[i]? = some (gn.scale * A.get ⟨i, Nat.lt_of_lt_of_le hi hA⟩) := by
  obtain ⟨r, hr, -, -, hlt, -⟩ := gn.process_spec_gain A
  have hin : i < A.length := Nat.lt_of_lt_of_le hi hA
  have hmin : i < min A.length gn.output.length := by omega
  refine ⟨r, hr, ?_⟩
  rw [hlt i hmin, List.getElem?_eq_getElem hin]
  simp [List.get_eq_getElem]

/-- Claim C3: for a SumNode of capacity `k` and all input frames `a`, `b`,
`process(a, b)` writes `a[i] + b[i]` exactly at the positions
`i < min(len a, len b, k)` (positions at or beyond that minimum keep their
previous value); in particular, when both inputs have length at least `k`,
`process(a, b)[i] = a[i] + b[i]` for every `i < k`. -/
theorem claim_C3 {α : Type} [Add α] (sn : SumNode α) (k : Nat)
    (hk : sn.output.length = k) (a b : List α) :
    ∃ r, sn.process a b = some r ∧
      (∀ i, ∀ h1 : i < a.length, ∀ h2 : i < b.length, i < k →
        r.output[i]? = some (a.get ⟨i, h1⟩ + b.get ⟨i, h2⟩)) ∧
      (∀ i, min (min a.length b.length) k ≤ i → r.output[i]? = sn.output[i]?) ∧
      (∀ hA : k ≤ a.length, ∀ hB : k ≤ b.length, ∀ i, ∀ hi : i < k,
        r.output[i]? = some (a.get ⟨i, Nat.lt_of_lt_of_le hi hA⟩ +
          b.get ⟨i, Nat.lt_of_lt_of_le hi hB⟩)) := by
  obtain ⟨r, hr, hlen, hlt, hge⟩ := sn.process_spec_sum a b
  refine ⟨r, hr, ?_, ?_, ?_⟩
  · intro i h1 h2 hik
    exact hlt i h1 h2 (by omega)
  · intro i hi
    exact hge i (by omega)
  · intro hA hB i hi
    exact hlt i (Nat.lt_of_lt_of_le hi hA) (Nat.lt_of_lt_of_le hi hB) (by omega)

/-- Claim C4: for a RealToComplexNode of capacity `k`, `process(A)` writes
`complex(A[i], 0)` exactly at the positions `i < min(len A, k)` (positions
at or beyond that minimum keep their previous value); in particular, when
`A` has length exactly `k`, `process(A)[i] = complex(A[i], 0)` for every
`i < k`. -/
theorem claim_C4 {α : Type} [Zero α] (node : RealToComplexNode α) (k : Nat)
    (hk : node.output.length = k) (A : List α) :
    ∃ r, node.process A = some r ∧
      (∀ i, i < min A.length k → r.output[i]? = (A[i]?).map (fun x => Complex32.new x 0)) ∧
      (∀ i, min A.length k ≤ i → r.output[i]? = node.output[i]?) ∧
      (∀ hA : A.length = k, ∀ i, ∀ hi : i < k,
        r.output[i]? =
          some (Complex32.new (A.get ⟨i, Nat.lt_of_lt_of_le hi (Nat.le_of_eq hA.symm)⟩) 0)) := by
  obtain ⟨r, hr, hlen, hlt, hge⟩ := node.process_spec_r2c A
  refine ⟨r, hr, ?_, ?_, ?_⟩
  · intro i hi
    exact hlt i (by omega)
  · intro i hi
    exact hge i (by omega)
  · intro hA i hi
    have hin : i < A.length := Nat.lt_of_lt_of_le hi (Nat.le_of_eq hA.symm)
    rw [hlt i (by omega), List.getElem?_eq_getElem hin]
    simp [List.get_eq_getElem]

/-- Claim C5: for a ComplexToRealNode of capacity `k` and every complex
input frame `C`, `process(C)` writes the real part of `C[i]` (discarding
the imaginary part) exactly at the positions `i < min(len C, k)`
(positions at or beyond that minimum keep their previous value). -/
theorem claim_C5 {α : Type} (node : ComplexToRealNode α) (k : Nat)
    (hk : node.output.length = k) (C : List (Complex32 α)) :
    ∃ r, node.process C = some r ∧
      (∀ i, i < min C.length k → r.output[i]? = (C[i]?).map Complex32.re) ∧
      (∀ i, min C.length k ≤ i → r.output[i]? = node.output[i]?) := by
  obtain ⟨r, hr, hlen, hlt, hge⟩ := node.process_spec_c2r C
  refine ⟨r, hr, ?_, ?_⟩
  · intro i hi
    exact hlt i (by omega)
  · intro i hi
    exact hge i (by omega)

/-- Claim C6: round-trip identity — for every real frame `A` of length
`k`, feeding `A` through a freshly constructed RealToComplexNode of
capacity `k` and the resulting complex frame through a freshly
constructed ComplexToRealNode of capacity `k` yields `A` again,
elementwise. -/
theorem claim_C6 {α : Type} [Zero α] (k : Nat) (A : List α) (hA : A.length = k) :
    ∃ r1 r2, (RealToComplexNode.new α k).process A = some r1 ∧
      (ComplexToRealNode.new α k).process r1.output = some r2 ∧
      r2.output = A := by
  obtain ⟨r1, hr1, hlen1, hlt1, hge1⟩ := (RealToComplexNode.new α k).process_spec_r2c A
  obtain ⟨r2, hr2, hlen2, hlt2, hge2⟩ := (ComplexToRealNode.new α k).process_spec_c2r r1.output
  have hko : (RealToComplexNode.new α k).output.length = k := by
    simp [RealToComplexNode.new]
  have hko2 : (ComplexToRealNode.new α k).output.length = k := by
    simp [ComplexToRealNode.new]
  have hl1 : r1.output.length = k := hlen1.trans hko
  have hl2 : r2.output.length = k := hlen2.trans hko2
  refine ⟨r1, r2, hr1, hr2, ?_⟩
  apply List.ext_getElem?
  intro i
  by_cases hik : i < k
  · have hmin2 : i < min r1.output.length (ComplexToRealNode.new α k).output.length := by
      omega
    have hmin1 : i < min A.length (RealToComplexNode.new α k).output.length := by
      omega
    have hiA : i < A.length := by omega
    rw [hlt2 i hmin2, hlt1 i hmin1, List.getElem?_eq_getElem hiA]
    simp
  · have h2 : r2.output[i]? = none := List.getElem?_eq_none (by omega)
    have hA2 : A[i]? = none := List.getElem?_eq_none (by omega)
    rw [h2, hA2]

/-- Claim C7: truncation frame effect — for every node, `process` only
recomputes the first `n = min(input length(s), capacity)` output
positions; every output position at index at least `n` keeps exactly the
value it held before the call. -/
theorem claim_C7 {α : Type} [Zero α] [Add α] [Mul α]
    (r2c : RealToComplexNode α) (c2r : ComplexToRealNode α)
    (gn : GainNode α) (sn : SumNode α)
    (A : List α) (C : List (Complex32 α)) (B1 B2 : List α) :
    (∃ r, r2c.process A = some r ∧
      ∀ i, min A.length r2c.output.length ≤ i → r.output[i]? = r2c.output[i]?) ∧
    (∃ r, c2r.process C = some r ∧
      ∀ i, min C.length c2r.output.length ≤ i → r.output[i]? = c2r.output[i]?) ∧
    (∃ r, gn.process A = some r ∧
      ∀ i, min A.length gn.output.length ≤ i → r.output[i]? = gn.output[i]?) ∧
    (∃ r, sn.process B1 B2 = some r ∧
      ∀ i, min (min B1.length B2.length) sn.output.length ≤ i →
        r.output[i]? = sn.output[i]?) := by
  obtain ⟨r1, h1, -, -, hge1⟩ := r2c.process_spec_r2c A
  obtain ⟨r2, h2, -, -, hge2⟩ := c2r.process_spec_c2r C
  obtain ⟨r3, h3, -, -, -, hge3⟩ := gn.process_spec_gain A
  obtain ⟨r4, h4, -, -, hge4⟩ := sn.process_spec_sum B1 B2
  exact ⟨⟨r1, h1, hge1⟩, ⟨r2, h2, hge2⟩, ⟨r3, h3, hge3⟩, ⟨r4, h4, hge4⟩⟩

/-- Claim C8: totality — for every node and every input frame of any
length (including empty frames and capacity-0 nodes), `process` completes
without panicking: every modelled bounds check succeeds, so the call
returns `some` result. -/
theorem claim_C8 {α : Type} [Zero α] [Add α] [Mul α]
    (r2c : RealToComplexNode α) (c2r : ComplexToRealNode α)
    (gn : GainNode α) (sn : SumNode α)
    (A : List α) (C : List (Complex32 α)) (B1 B2 : List α) :
    (r2c.process A).isSome ∧ (c2r.process C).isSome ∧
    (gn.process A).isSome ∧ (sn.process B1 B2).isSome := by
  obtain ⟨r1, h1, -⟩ := r2c.process_spec_r2c A
  obtain ⟨r2, h2, -⟩ := c2r.process_spec_c2r C
  obtain ⟨r3, h3, -⟩ := gn.process_spec_gain A
  obtain ⟨r4, h4, -⟩ := sn.process_spec_sum B1 B2
  rw [h1, h2, h3, h4]
  exact ⟨rfl, rfl, rfl, rfl⟩

/-- Claim C9: determinism — for every node, `process` is a function of
the node state and the input frame(s): equal states and equal inputs give
equal results, and the only state change is the overwrite of the owned
output buffer (a GainNode's scale factor is preserved). -/
theorem claim_C9 {α : Type} [Zero α] [Add α] [Mul α]
    (n1 n2 : RealToComplexNode α) (c1 c2 : ComplexToRealNode α)
    (g1 g2 : GainNode α) (s1 s2 : SumNode α)
    (A1 A2 : List α) (D1 D2 : List (Complex32 α)) (B1 B2 B3 B4 : List α)
    (hn : n1 = n2) (hA : A1 = A2) (hc : c1 = c2) (hD : D1 = D2)
    (hg : g1 = g2) (hs : s1 = s2) (hB13 : B1 = B3) (hB24 : B2 = B4) :
    n1.process A1 = n2.process A2 ∧ c1.process D1 = c2.process D2 ∧
    g1.process A1 = g2.process A2 ∧ s1.process B1 B2 = s2.process B3 B4 ∧
    (∀ r, g1.process A1 = some r → r.scale = g1.scale) := by
  subst hn hA hc hD hg hs hB13 hB24
  refine ⟨rfl, rfl, rfl, rfl, ?_⟩
  obtain ⟨r, hr, hscale, -, -, -⟩ := g1.process_spec_gain A1
  intro r' hr'
  rw [hr] at hr'
  injection hr' with h
  exact h ▸ hscale

/-- Claim C10: zero initialisation — every constructor with size `s`
creates the owned output buffer with exactly `s` elements all equal to
zero (`0.0` for real buffers, `0 + 0i` for the complex buffer); hence
before any `process` call every entry reads zero, and after a first
shorter-than-capacity input the stale trailing entries of a fresh
GainNode still read zero. -/
theorem claim_C10 {α : Type} [Zero α] [Mul α] (s : Nat) (g : α) :
    ((RealToComplexNode.new α s).output.length = s ∧
      ∀ i, i < s → (RealToComplexNode.new α s).output[i]? = some (Complex32.new 0 0)) ∧
    ((ComplexToRealNode.new α s).output.length = s ∧
      ∀ i, i < s → (ComplexToRealNode.new α s).output[i]? = some 0) ∧
    ((GainNode.new g s).output.length = s ∧
      ∀ i, i < s → (GainNode.new g s).output[i]? = some 0) ∧
    ((SumNode.new α s).output.length = s ∧
      ∀ i, i < s → (SumNode.new α s).output[i]? = some 0) ∧
    (∀ A : List α, A.length ≤ s → ∃ r, (GainNode.new g s).process A = some r ∧
      ∀ i, A.length ≤ i → i < s → r.output[i]? = some 0) := by
  refine ⟨⟨by simp [RealToComplexNode.new], fun i hi => by simp [RealToComplexNode.new, hi]⟩,
    ⟨by simp [ComplexToRealNode.new], fun i hi => by simp [ComplexToRealNode.new, hi]⟩,
    ⟨by simp [GainNode.new], fun i hi => by simp [GainNode.new, hi]⟩,
    ⟨by simp [SumNode.new], fun i hi => by simp [SumNode.new, hi]⟩, ?_⟩
  intro A hAs
  obtain ⟨r, hr, -, -, -, hge⟩ := (GainNode.new g s).process_spec_gain A
  refine ⟨r, hr, ?_⟩
  intro i hAi his
  rw [hge i (Nat.le_trans (Nat.min_le_left _ _) hAi)]
  simp [GainNode.new, his]

/-- Witness for claim C1 at capacity 2 with concrete nodes and inputs. -/
theorem claim_C1_witness :
    ((RealToComplexNode.new Int 2).output.length = 2 ∧
      (ComplexToRealNode.new Int 2).output.length = 2 ∧
      (GainNode.new (5 : Int) 2).output.length = 2 ∧
      (SumNode.new Int 2).output.length = 2) ∧
    (((RealToComplexNode.new Int 2).output.length = 2 ∧
        (ComplexToRealNode.new Int 2).output.length = 2 ∧
        (∀ g : Int, (GainNode.new g 2).output.length = 2) ∧
        (SumNode.new Int 2).output.length = 2) ∧
      (∃ r, (RealToComplexNode.new Int 2).process [1, 2, 3] = some r ∧
        r.output.length = 2) ∧
      (∃ r, (ComplexToRealNode.new Int 2).process [Complex32.new 4 5] = some r ∧
        r.output.length = 2) ∧
      (∃ r, (GainNode.new (5 : Int) 2).process [1, 2, 3] = some r ∧
        r.output.length = 2) ∧
      (∃ r, (SumNode.new Int 2).process [1] [2, 3] = some r ∧ r.output.length = 2)) :=
  ⟨⟨by decide, by decide, by decide, by decide⟩,
    claim_C1 2 (RealToComplexNode.new Int 2) (ComplexToRealNode.new Int 2)
      (GainNode.new (5 : Int) 2) (SumNode.new Int 2)
      (by decide) (by decide) (by decide) (by decide)
      [1, 2, 3] [Complex32.new 4 5] [1] [2, 3]⟩

/-- Witness for claim C2: gain 3, capacity 2, input `[5, 7, 9]`, index 1. -/
theorem claim_C2_witness :
    (GainNode.new (3 : Int) 2).output.length = 2 ∧
    2 ≤ ([5, 7, 9] : List Int).length ∧ 1 < 2 ∧
    (∃ r, (GainNode.new (3 : Int) 2).process [5, 7, 9] = some r ∧
      r.output[1]? = some ((GainNode.new (3 : Int) 2).scale *
        ([5, 7, 9] : List Int).get ⟨1, by decide⟩)) :=
  ⟨by decide, by decide, by decide,
    claim_C2 (GainNode.new (3 : Int) 2) 2 (by decide) [5, 7, 9] (by decide) 1 (by decide)⟩

/-- Witness for claim C3: capacity 2, inputs `[1, 2, 3]` and `[10, 20]`. -/
theorem claim_C3_witness :
    (SumNode.new Int 2).output.length = 2 ∧
    (∃ r, (SumNode.new Int 2).process [1, 2, 3] [10, 20] = some r ∧
      (∀ i, ∀ h1 : i < ([1, 2, 3] : List Int).length,
        ∀ h2 : i < ([10, 20] : List Int).length, i < 2 →
        r.output[i]? = some (([1, 2, 3] : List Int).get ⟨i, h1⟩ +
          ([10, 20] : List Int).get ⟨i, h2⟩)) ∧
      (∀ i, min (min ([1, 2, 3] : List Int).length ([10, 20] : List Int).length) 2 ≤ i →
        r.output[i]? = (SumNode.new Int 2).output[i]?) ∧
      (∀ hA : 2 ≤ ([1, 2, 3] : List Int).length, ∀ hB : 2 ≤ ([10, 20] : List Int).length,
        ∀ i, ∀ hi : i < 2,
        r.output[i]? = some (([1, 2, 3] : List Int).get ⟨i, Nat.lt_of_lt_of_le hi hA⟩ +
          ([10, 20] : List Int).get ⟨i, Nat.lt_of_lt_of_le hi hB⟩))) :=
  ⟨by decide, claim_C3 (SumNode.new Int 2) 2 (by decide) [1, 2, 3] [10, 20]⟩

/-- Witness for claim C4: capacity 3, input `[7, 8]` (shorter than the
capacity, so the truncation clauses are exercised). -/
theorem claim_C4_witness :
    (RealToComplexNode.new Int 3).output.length = 3 ∧
    (∃ r, (RealToComplexNode.new Int 3).process [7, 8] = some r ∧
      (∀ i, i < min ([7, 8] : List Int).length 3 →
        r.output[i]? = (([7, 8] : List Int)[i]?).map (fun x => Complex32.new x 0)) ∧
      (∀ i, min ([7, 8] : List Int).length 3 ≤ i →
        r.output[i]? = (RealToComplexNode.new Int 3).output[i]?) ∧
      (∀ hA : ([7, 8] : List Int).length = 3, ∀ i, ∀ hi : i < 3,
        r.output[i]? = some (Complex32.new (([7, 8] : List Int).get
          ⟨i, Nat.lt_of_lt_of_le hi (Nat.le_of_eq hA.symm)⟩) 0))) :=
  ⟨by decide, claim_C4 (RealToComplexNode.new Int 3) 3 (by decide) [7, 8]⟩

/-- Witness for claim C5: capacity 2, three-element complex input. -/
theorem claim_C5_witness :
    (ComplexToRealNode.new Int 2).output.length = 2 ∧
    (∃ r, (ComplexToRealNode.new Int 2).process
        [Complex32.new 1 2, Complex32.new 3 4, Complex32.new 5 6] = some r ∧
      (∀ i, i < min ([Complex32.new 1 2, Complex32.new 3 4,
          Complex32.new (5 : Int) 6] : List (Complex32 Int)).length 2 →
        r.output[i]? = (([Complex32.new 1 2, Complex32.new 3 4,
          Complex32.new (5 : Int) 6] : List (Complex32 Int))[i]?).map Complex32.re) ∧
      (∀ i, min ([Complex32.new 1 2, Complex32.new 3 4,
          Complex32.new (5 : Int) 6] : List (Complex32 Int)).length 2 ≤ i →
        r.output[i]? = (ComplexToRealNode.new Int 2).output[i]?)) :=
  ⟨by decide, claim_C5 (ComplexToRealNode.new Int 2) 2 (by decide)
    [Complex32.new 1 2, Complex32.new 3 4, Complex32.new 5 6]⟩

/-- Witness for claim C6: round trip of `[4, 9]` through capacity-2 nodes. -/
theorem claim_C6_witness :
    ([4, 9] : List Int).length = 2 ∧
    (∃ r1 r2, (RealToComplexNode.new Int 2).process [4, 9] = some r1 ∧
      (ComplexToRealNode.new Int 2).process r1.output = some r2 ∧
      r2.output = [4, 9]) :=
  ⟨by decide, claim_C6 2 ([4, 9] : List Int) (by decide)⟩

/-- Witness for claim C7 with concrete nodes; the input `[6]` is shorter
than the gain node's capacity 2, exercising the stale-tail clause. -/
theorem claim_C7_witness :
    (∃ r, (RealToComplexNode.new Int 2).process [6] = some r ∧
      ∀ i, min ([6] : List Int).length (RealToComplexNode.new Int 2).output.length ≤ i →
        r.output[i]? = (RealToComplexNode.new Int 2).output[i]?) ∧
    (∃ r, (ComplexToRealNode.new Int 2).process [Complex32.new 1 1] = some r ∧
      ∀ i, min ([Complex32.new (1 : Int) 1] : List (Complex32 Int)).length
          (ComplexToRealNode.new Int 2).output.length ≤ i →
        r.output[i]? = (ComplexToRealNode.new Int 2).output[i]?) ∧
    (∃ r, (GainNode.new (3 : Int) 2).process [6] = some r ∧
      ∀ i, min ([6] : List Int).length (GainNode.new (3 : Int) 2).output.length ≤ i →
        r.output[i]? = (GainNode.new (3 : Int) 2).output[i]?) ∧
    (∃ r, (SumNode.new Int 2).process [1] [2, 3] = some r ∧
      ∀ i, min (min ([1] : List Int).length ([2, 3] : List Int).length)
          (SumNode.new Int 2).output.length ≤ i →
        r.output[i]? = (SumNode.new Int 2).output[i]?) :=
  claim_C7 (RealToComplexNode.new Int 2) (ComplexToRealNode.new Int 2)
    (GainNode.new (3 : Int) 2) (SumNode.new Int 2)
    [6] [Complex32.new 1 1] [1] [2, 3]

/-- Witness for claim C9 at concrete equal states and inputs. -/
theorem claim_C9_witness :
    RealToComplexNode.new Int 1 = RealToComplexNode.new Int 1 ∧
    ([3] : List Int) = [3] ∧
    ComplexToRealNode.new Int 1 = ComplexToRealNode.new Int 1 ∧
    ([Complex32.new (1 : Int) 2] : List (Complex32 Int)) = [Complex32.new 1 2] ∧
    GainNode.new (2 : Int) 1 = GainNode.new (2 : Int) 1 ∧
    SumNode.new Int 1 = SumNode.new Int 1 ∧
    ([3] : List Int) = [3] ∧ ([4] : List Int) = [4] ∧
    ((RealToComplexNode.new Int 1).process [3] = (RealToComplexNode.new Int 1).process [3] ∧
      (ComplexToRealNode.new Int 1).process [Complex32.new 1 2] =
        (ComplexToRealNode.new Int 1).process [Complex32.new 1 2] ∧
      (GainNode.new (2 : Int) 1).process [3] = (GainNode.new (2 : Int) 1).process [3] ∧
      (SumNode.new Int 1).process [3] [4] = (SumNode.new Int 1).process [3] [4] ∧
      (∀ r, (GainNode.new (2 : Int) 1).process [3] = some r →
        r.scale = (GainNode.new (2 : Int) 1).scale)) :=
  ⟨rfl, rfl, rfl, rfl, rfl, rfl, rfl, rfl,
    claim_C9 (RealToComplexNode.new Int 1) (RealToComplexNode.new Int 1)
      (ComplexToRealNode.new Int 1) (ComplexToRealNode.new Int 1)
      (GainNode.new (2 : Int) 1) (GainNode.new (2 : Int) 1)
      (SumNode.new Int 1) (SumNode.new Int 1)
      [3] [3] [Complex32.new 1 2] [Complex32.new 1 2] [3] [4] [3] [4]
      rfl rfl rfl rfl rfl rfl rfl rfl⟩

/-- Witness for claim C10 at size 2 with gain factor 3. -/
theorem claim_C10_witness :
    ((RealToComplexNode.new Int 2).output.length = 2 ∧
      ∀ i, i < 2 → (RealToComplexNode.new Int 2).output[i]? = some (Complex32.new 0 0)) ∧
    ((ComplexToRealNode.new Int 2).output.length = 2 ∧
      ∀ i, i < 2 → (ComplexToRealNode.new Int 2).output[i]? = some 0) ∧
    ((GainNode.new (3 : Int) 2).output.length = 2 ∧
      ∀ i, i < 2 → (GainNode.new (3 : Int) 2).output[i]? = some 0) ∧
    ((SumNode.new Int 2).output.length = 2 ∧
      ∀ i, i < 2 → (SumNode.new Int 2).output[i]? = some 0) ∧
    (∀ A : List Int, A.length ≤ 2 → ∃ r, (GainNode.new (3 : Int) 2).process A = some r ∧
      ∀ i, A.length ≤ i → i < 2 → r.output[i]? = some 0) :=
  claim_C10 2 (3 : Int)
